import Mathlib

/-!
Shallow embedding of the cyclone_physics engine (Rust) in Lean 4.

Conventions of the embedding:
* The engine's `Real` type (an IEEE-754 float, `f32` by default) is embedded
  as `ℚ`, i.e. every arithmetic operation is performed exactly.  Square roots
  are taken with `ratSqrt`, an exact rational square root that agrees with the
  mathematical square root whenever the argument is a perfect square of a
  rational; theorems that depend on the square root being exact carry that as
  a hypothesis.
* Rust methods that mutate `&mut self` are embedded as functions returning
  the updated value; sequences of mutations become sequenced `let` bindings.
* Rust operations that panic (slotmap indexing with an invalid key, failed
  asserts, unreachable arms) are embedded as `Option`-returning functions,
  `none` standing for the panic.
* Recursive procedures whose Rust termination argument is extrinsic
  (traversal of a slotmap-backed graph) take an explicit fuel parameter;
  exhausted fuel also yields `none`.
-/

namespace Cyclone

/-- Largest natural k ≤ bound with k·k ≤ n (helper for `natSqrt`). -/
def natSqrtFrom : Nat → Nat → Nat
  | 0, _ => 0
  | k + 1, n => if (k + 1) * (k + 1) ≤ n then k + 1 else natSqrtFrom k n

/-- Integer square root (floor), by downward search. -/
def natSqrt (n : Nat) : Nat := natSqrtFrom n n

/-- Exact rational square root: agrees with the true square root whenever the
numerator and denominator of the (reduced) argument are perfect squares,
which is the only regime this development relies on. -/
def ratSqrt (q : ℚ) : ℚ :=
  (natSqrt q.num.toNat : ℚ) / (natSqrt q.den : ℚ)

/-- Embedding of `Real::MAX` for single precision (`f32::MAX`), the exact
value (2 − 2⁻²³)·2¹²⁷. -/
def realMax : ℚ := 2 ^ 128 - 2 ^ 104

/-- Embedding of `consts::PI` in single precision: the `f32` value nearest
to π. -/
def realPi : ℚ := 13176795 / 4194304

/-! ## Math kernel: `src/math/vector.rs` -/

/-- Embedding of `Vec3` (`src/math/vector.rs`). -/
structure Vec3 where
  x : ℚ
  y : ℚ
  z : ℚ
deriving DecidableEq, Repr

namespace Vec3

/-- Embedding of `Vec3::ZERO`. -/
def zero : Vec3 := ⟨0, 0, 0⟩

/-- Embedding of `Vec3::Y`. -/
def unitY : Vec3 := ⟨0, 1, 0⟩

instance : Add Vec3 := ⟨fun a b => ⟨a.x + b.x, a.y + b.y, a.z + b.z⟩⟩

instance : Sub Vec3 := ⟨fun a b => ⟨a.x - b.x, a.y - b.y, a.z - b.z⟩⟩

instance : Neg Vec3 := ⟨fun a => ⟨-a.x, -a.y, -a.z⟩⟩

/-- Embedding of `impl Mul<Real> for Vec3` (componentwise scaling). -/
instance : HMul Vec3 ℚ Vec3 := ⟨fun a s => ⟨a.x * s, a.y * s, a.z * s⟩⟩

/-- Embedding of `impl Div<Real> for Vec3`. -/
instance : HDiv Vec3 ℚ Vec3 := ⟨fun a s => ⟨a.x / s, a.y / s, a.z / s⟩⟩

/-- Embedding of `Vec3::dot`. -/
def dot (a b : Vec3) : ℚ := a.x * b.x + a.y * b.y + a.z * b.z

/-- Embedding of `Vec3::cross`. -/
def cross (a b : Vec3) : Vec3 :=
  ⟨a.y * b.z - a.z * b.y, a.z * b.x - a.x * b.z, a.x * b.y - a.y * b.x⟩

/-- Embedding of `Vec3::squared_magnitude`. -/
def squared_magnitude (a : Vec3) : ℚ := a.x * a.x + a.y * a.y + a.z * a.z

/-- Embedding of `Vec3::magnitude`. -/
def magnitude (a : Vec3) : ℚ := ratSqrt a.squared_magnitude

/-- Embedding of `Vec3::normalized`. -/
def normalized (a : Vec3) : Vec3 :=
  if a.squared_magnitude ≤ 0 then a else a / ratSqrt a.squared_magnitude

/-- Embedding of `Vec3::distance_to_squared`. -/
def distance_to_squared (a b : Vec3) : ℚ := (b - a).squared_magnitude

/-- Embedding of `Vec3::component_product`. -/
def component_product (a b : Vec3) : Vec3 := ⟨a.x * b.x, a.y * b.y, a.z * b.z⟩

end Vec3

/-! ## Math kernel: `src/math/quat.rs` -/

/-- Embedding of `Quat` (`src/math/quat.rs`). -/
structure Quat where
  r : ℚ
  i : ℚ
  j : ℚ
  k : ℚ
deriving DecidableEq, Repr

namespace Quat

/-- Embedding of `Quat::IDENTITY`. -/
def identity : Quat := ⟨1, 0, 0, 0⟩

/-- Embedding of `Quat::squared_magnitude`. -/
def squared_magnitude (q : Quat) : ℚ :=
  q.r * q.r + q.i * q.i + q.j * q.j + q.k * q.k

/-- Embedding of `Quat::normalized`: the all-zero quaternion maps to the
identity, any other quaternion is scaled by the reciprocal square root of
its squared magnitude. -/
def normalized (q : Quat) : Quat :=
  if q.squared_magnitude = 0 then ⟨1, 0, 0, 0⟩
  else
    ⟨q.r * (ratSqrt q.squared_magnitude)⁻¹, q.i * (ratSqrt q.squared_magnitude)⁻¹,
      q.j * (ratSqrt q.squared_magnitude)⁻¹, q.k * (ratSqrt q.squared_magnitude)⁻¹⟩

/-- Embedding of `Quat::is_normalized`: squared magnitude within 2·10⁻⁴
of one. -/
def is_normalized (q : Quat) : Bool :=
  |q.squared_magnitude - 1| ≤ 2 / 10000

end Quat

/-! ## Math kernel: `src/math/matrix.rs` -/

/-- Embedding of `Mat3` (`src/math/matrix.rs`), row-major 3×3; field `dI`
mirrors `data[I]` of the Rust array. -/
structure Mat3 where
  d0 : ℚ
  d1 : ℚ
  d2 : ℚ
  d3 : ℚ
  d4 : ℚ
  d5 : ℚ
  d6 : ℚ
  d7 : ℚ
  d8 : ℚ
deriving DecidableEq, Repr

namespace Mat3

/-- Embedding of `Mat3::IDENTITY`. -/
def identity : Mat3 := ⟨1, 0, 0, 0, 1, 0, 0, 0, 1⟩

/-- Embedding of `Mat3::mul_mat3`. -/
def mul_mat3 (a b : Mat3) : Mat3 :=
  ⟨a.d0 * b.d0 + a.d1 * b.d3 + a.d2 * b.d6,
    a.d0 * b.d1 + a.d1 * b.d4 + a.d2 * b.d7,
    a.d0 * b.d2 + a.d1 * b.d5 + a.d2 * b.d8,
    a.d3 * b.d0 + a.d4 * b.d3 + a.d5 * b.d6,
    a.d3 * b.d1 + a.d4 * b.d4 + a.d5 * b.d7,
    a.d3 * b.d2 + a.d4 * b.d5 + a.d5 * b.d8,
    a.d6 * b.d0 + a.d7 * b.d3 + a.d8 * b.d6,
    a.d6 * b.d1 + a.d7 * b.d4 + a.d8 * b.d7,
    a.d6 * b.d2 + a.d7 * b.d5 + a.d8 * b.d8⟩

/-- Embedding of `Mat3::transpose`. -/
def transpose (a : Mat3) : Mat3 :=
  ⟨a.d0, a.d3, a.d6, a.d1, a.d4, a.d7, a.d2, a.d5, a.d8⟩

end Mat3

/-- Embedding of `Mat4` (`src/math/matrix.rs`), the upper 3×4 rows of an
affine transform, row-major; field `dI` mirrors `data[I]`. -/
structure Mat4 where
  d0 : ℚ
  d1 : ℚ
  d2 : ℚ
  d3 : ℚ
  d4 : ℚ
  d5 : ℚ
  d6 : ℚ
  d7 : ℚ
  d8 : ℚ
  d9 : ℚ
  d10 : ℚ
  d11 : ℚ
deriving DecidableEq, Repr

namespace Mat4

/-- Embedding of `Mat4::IDENTITY`. -/
def identity : Mat4 := ⟨1, 0, 0, 0, 0, 1, 0, 0, 0, 0, 1, 0⟩

/-- Embedding of `Mat4::from_orientation_and_position` (the quaternion to
rotation-matrix conversion plus the position column). -/
def from_orientation_and_position (o : Quat) (p : Vec3) : Mat4 :=
  ⟨1 - 2 * o.j * o.j - 2 * o.k * o.k,
    2 * o.i * o.j - 2 * o.r * o.k,
    2 * o.i * o.k + 2 * o.r * o.j,
    p.x,
    2 * o.i * o.j + 2 * o.r * o.k,
    1 - 2 * o.i * o.i - 2 * o.k * o.k,
    2 * o.j * o.k - 2 * o.r * o.i,
    p.y,
    2 * o.i * o.k - 2 * o.r * o.j,
    2 * o.j * o.k + 2 * o.r * o.i,
    1 - 2 * o.i * o.i - 2 * o.j * o.j,
    p.z⟩

/-- Embedding of `Mat4::transform`. -/
def transform (m : Mat4) (v : Vec3) : Vec3 :=
  ⟨v.x * m.d0 + v.y * m.d1 + v.z * m.d2 + m.d3,
    v.x * m.d4 + v.y * m.d5 + v.z * m.d6 + m.d7,
    v.x * m.d8 + v.y * m.d9 + v.z * m.d10 + m.d11⟩

/-- Modelled from the spec: `Mat4::get_x_axis` is used by the narrow phase
but its definition is not among the source files; per the spec's row-major
3×4 convention ("the cuboid's rotated axes", §4.7) it is the first column of
the rotation block, i.e. the image of the body x-axis. -/
def get_x_axis (m : Mat4) : Vec3 := ⟨m.d0, m.d4, m.d8⟩

/-- Modelled from the spec: `Mat4::get_y_axis`, second rotation column. -/
def get_y_axis (m : Mat4) : Vec3 := ⟨m.d1, m.d5, m.d9⟩

/-- Modelled from the spec: `Mat4::get_z_axis`, third rotation column. -/
def get_z_axis (m : Mat4) : Vec3 := ⟨m.d2, m.d6, m.d10⟩

/-- Modelled from the spec: `Mat4::get_position`, the translation column
(consistent with `transform` mapping the origin to it). -/
def get_position (m : Mat4) : Vec3 := ⟨m.d3, m.d7, m.d11⟩

/-- Modelled from the spec: `Mat4::get_axis_vector(i)`, the i-th column;
only indices 0..2 are reached by the narrow phase. -/
def get_axis_vector (m : Mat4) (i : Nat) : Vec3 :=
  match i with
  | 0 => m.get_x_axis
  | 1 => m.get_y_axis
  | 2 => m.get_z_axis
  | _ => m.get_position

/-- Rotation block of a `Mat4` as a `Mat3` (helper for stating C2). -/
def rotation_part (m : Mat4) : Mat3 :=
  ⟨m.d0, m.d1, m.d2, m.d4, m.d5, m.d6, m.d8, m.d9, m.d10⟩

end Mat4

/-! ## Particles: `src/particle/mod.rs` -/

/-- Embedding of `Particle` (`src/particle/mod.rs`). -/
structure Particle where
  position : Vec3
  velocity : Vec3
  acceleration : Vec3
  damping : ℚ
  inverse_mass : ℚ
  force_accum : Vec3
deriving DecidableEq, Repr

instance : Inhabited Particle :=
  ⟨⟨Vec3.zero, Vec3.zero, Vec3.zero, 99 / 100, 0, Vec3.zero⟩⟩

/-- Embedding of `Particle::integrate`.  `powf` is the embedding of
`Real::powf`, kept abstract because it is transcendental; every statement
below holds for an arbitrary `powf`.  The `let` sequence mirrors the
mutation order of the Rust method. -/
def Particle.integrate (powf : ℚ → ℚ → ℚ) (p : Particle) (duration : ℚ) :
    Particle :=
  if p.inverse_mass ≤ 0 then p
  else
    let p1 := { p with position := p.position + p.velocity * duration }
    let resulting_acc := p1.acceleration + p1.force_accum * p1.inverse_mass
    let p2 := { p1 with
      velocity := p1.velocity * powf p1.damping duration
          + resulting_acc * duration }
    { p2 with force_accum := Vec3.zero }

/-! ## Rigid bodies: `src/rigid_body/mod.rs` -/

/-- Embedding of `RigidBody` (`src/rigid_body/mod.rs`). -/
structure RigidBody where
  inverse_mass : ℚ
  damping : ℚ
  angular_damping : ℚ
  position : Vec3
  orientation : Quat
  velocity : Vec3
  angular_velocity : Vec3
  acceleration : Vec3
  angular_acceleration : Vec3
  inverse_inertia_tensor : Mat3
  transform_matrix : Mat4
  inverse_inertia_tensor_world : Mat3
  force_accum : Vec3
  torque_accum : Vec3
  is_awake : Bool
  last_frame_acceleration : Vec3
deriving DecidableEq, Repr

/-- Embedding of the free function
`inverse_inertia_tensor_to_world_coords` (`src/rigid_body/mod.rs`):
the similarity transform of `iit` by the rotation block of `rotmat`. -/
def inverse_inertia_tensor_to_world_coords (iit : Mat3) (rotmat : Mat4) :
    Mat3 :=
  let t4 := rotmat.d0 * iit.d0 + rotmat.d1 * iit.d3 + rotmat.d2 * iit.d6
  let t9 := rotmat.d0 * iit.d1 + rotmat.d1 * iit.d4 + rotmat.d2 * iit.d7
  let t14 := rotmat.d0 * iit.d2 + rotmat.d1 * iit.d5 + rotmat.d2 * iit.d8
  let t28 := rotmat.d4 * iit.d0 + rotmat.d5 * iit.d3 + rotmat.d6 * iit.d6
  let t33 := rotmat.d4 * iit.d1 + rotmat.d5 * iit.d4 + rotmat.d6 * iit.d7
  let t38 := rotmat.d4 * iit.d2 + rotmat.d5 * iit.d5 + rotmat.d6 * iit.d8
  let t52 := rotmat.d8 * iit.d0 + rotmat.d9 * iit.d3 + rotmat.d10 * iit.d6
  let t57 := rotmat.d8 * iit.d1 + rotmat.d9 * iit.d4 + rotmat.d10 * iit.d7
  let t62 := rotmat.d8 * iit.d2 + rotmat.d9 * iit.d5 + rotmat.d10 * iit.d8
  ⟨t4 * rotmat.d0 + t9 * rotmat.d1 + t14 * rotmat.d2,
    t4 * rotmat.d4 + t9 * rotmat.d5 + t14 * rotmat.d6,
    t4 * rotmat.d8 + t9 * rotmat.d9 + t14 * rotmat.d10,
    t28 * rotmat.d0 + t33 * rotmat.d1 + t38 * rotmat.d2,
    t28 * rotmat.d4 + t33 * rotmat.d5 + t38 * rotmat.d6,
    t28 * rotmat.d8 + t33 * rotmat.d9 + t38 * rotmat.d10,
    t52 * rotmat.d0 + t57 * rotmat.d1 + t62 * rotmat.d2,
    t52 * rotmat.d4 + t57 * rotmat.d5 + t62 * rotmat.d6,
    t52 * rotmat.d8 + t57 * rotmat.d9 + t62 * rotmat.d10⟩

/-- Embedding of `RigidBody::update_derived_data`.  Note the assignment
target of the world-coordinate tensor in the source: it writes
`self.inverse_inertia_tensor`, the body-space field, and never writes
`self.inverse_inertia_tensor_world`. -/
def RigidBody.update_derived_data (b : RigidBody) : RigidBody :=
  let orientation := b.orientation.normalized
  let transform_matrix :=
    Mat4.from_orientation_and_position orientation b.position
  { b with
    orientation := orientation
    transform_matrix := transform_matrix
    inverse_inertia_tensor :=
      inverse_inertia_tensor_to_world_coords b.inverse_inertia_tensor
        transform_matrix }

/-- Rigid body used as the failing input for C2: unit mass at the origin,
orientation the unit quaternion (3/5, 4/5, 0, 0) (a rotation about x with
rational matrix entries), body-space inverse inertia tensor diag(1,2,3),
remaining fields as produced by `RigidBody::new`. -/
def derivedDataBody : RigidBody :=
  ⟨1, 99 / 100, 99 / 100, Vec3.zero, ⟨3 / 5, 4 / 5, 0, 0⟩, Vec3.zero,
    Vec3.zero, Vec3.zero, Vec3.zero, ⟨1, 0, 0, 0, 2, 0, 0, 0, 3⟩,
    Mat4.identity, Mat3.identity, Vec3.zero, Vec3.zero, true, Vec3.zero⟩

/-! ## Narrow phase: `src/rigid_body/collide_narrow.rs` -/

/-- Embedding of `Contact` (`src/rigid_body/collide_narrow.rs`); rigid body
handles are embedded as naturals. -/
structure Contact where
  body_a : Nat
  body_b : Option Nat
  point : Vec3
  normal : Vec3
  penetration : ℚ
deriving DecidableEq, Repr

/-- Embedding of `Cuboid` (`src/rigid_body/collide_narrow.rs`). -/
structure Cuboid where
  half_size : Vec3
deriving DecidableEq, Repr

/-- Embedding of `algo::transform_cuboid_to_axis`. -/
def transform_cuboid_to_axis (cuboid : Cuboid) (cuboid_transform : Mat4)
    (axis : Vec3) : ℚ :=
  cuboid.half_size.x * |cuboid_transform.get_x_axis.dot axis| +
    cuboid.half_size.y * |cuboid_transform.get_y_axis.dot axis| +
    cuboid.half_size.z * |cuboid_transform.get_z_axis.dot axis|

/-- Embedding of `algo::cuboids_penetration_on_axis` (positive result means
overlap, negative means separation). -/
def cuboids_penetration_on_axis (cuboid_a : Cuboid) (transform_a : Mat4)
    (cuboid_b : Cuboid) (transform_b : Mat4) (axis : Vec3)
    (to_center : Vec3) : ℚ :=
  transform_cuboid_to_axis cuboid_a transform_a axis +
      transform_cuboid_to_axis cuboid_b transform_b axis -
    |to_center.dot axis|

/-- Embedding of `algo::cuboid_edge_edge_contact_point`.  The division is
rational (division by a zero denominator yields zero instead of a float
infinity); no theorem below exercises the degenerate-denominator case. -/
def cuboid_edge_edge_contact_point (axis_a edge_point_a axis_b
    edge_point_b : Vec3) : Vec3 :=
  let to_st := edge_point_a - edge_point_b
  let dp_sta_a := to_st.dot axis_a
  let dp_sta_b := to_st.dot axis_b
  let sm_a := axis_a.squared_magnitude
  let sm_b := axis_b.squared_magnitude
  let dot_product_edges := axis_a.dot axis_b
  let denom := sm_a * sm_b - dot_product_edges ^ 2
  let a := (dot_product_edges * dp_sta_b - sm_b * dp_sta_a) / denom
  let b := (sm_a * dp_sta_b - dot_product_edges * dp_sta_a) / denom
  let nearest_point_a := edge_point_a + axis_a * a
  let nearest_point_b := edge_point_b + axis_b * b
  nearest_point_a * (1 / 2 : ℚ) + nearest_point_b * (1 / 2 : ℚ)

/-- Embedding of `algo::fill_point_face_cuboid_cuboid`: the single contact
it pushes for a vertex-of-`other` against face-of-`transform_a` case. -/
def fill_point_face_cuboid_cuboid (transform_a : Mat4) (other : Cuboid)
    (transform_b : Mat4) (to_center : Vec3) (body_a : Nat)
    (body_b : Option Nat) (normal_index : Nat) (overlap : ℚ) : Contact :=
  let picked_normal := transform_a.get_axis_vector normal_index
  let normal :=
    if 0 < to_center.dot picked_normal then -picked_normal else picked_normal
  let vertex : Vec3 :=
    ⟨if transform_b.get_x_axis.dot normal < 0 then -other.half_size.x
        else other.half_size.x,
      if transform_b.get_y_axis.dot normal < 0 then -other.half_size.y
        else other.half_size.y,
      if transform_b.get_z_axis.dot normal < 0 then -other.half_size.z
        else other.half_size.z⟩
  ⟨body_a, body_b, transform_b.transform vertex, normal, overlap⟩

/-- The fifteen SAT axes tested by `algo::cuboid_and_cuboid`, in source
order: the three face axes of each cuboid, then the nine edge-edge cross
products. -/
def satAxes (transform_a transform_b : Mat4) : List Vec3 :=
  [transform_a.get_x_axis, transform_a.get_y_axis, transform_a.get_z_axis,
    transform_b.get_x_axis, transform_b.get_y_axis, transform_b.get_z_axis,
    transform_a.get_x_axis.cross transform_b.get_x_axis,
    transform_a.get_x_axis.cross transform_b.get_y_axis,
    transform_a.get_x_axis.cross transform_b.get_z_axis,
    transform_a.get_y_axis.cross transform_b.get_x_axis,
    transform_a.get_y_axis.cross transform_b.get_y_axis,
    transform_a.get_y_axis.cross transform_b.get_z_axis,
    transform_a.get_z_axis.cross transform_b.get_x_axis,
    transform_a.get_z_axis.cross transform_b.get_y_axis,
    transform_a.get_z_axis.cross transform_b.get_z_axis]

/-- Embedding of the axis-selection loop of `algo::cuboid_and_cuboid`:
starting from `best_overlap = Real::MAX` and an unset `best_case`, skip
axes of squared magnitude below 10⁻³ and keep the index of the strictly
smallest overlap. -/
def satBest (cuboid_a : Cuboid) (transform_a : Mat4) (cuboid_b : Cuboid)
    (transform_b : Mat4) (to_center : Vec3) : ℚ × Option Nat :=
  (satAxes transform_a transform_b).enum.foldl
    (fun acc p =>
      if p.2.squared_magnitude < 1 / 1000 then acc
      else
        let overlap := cuboids_penetration_on_axis cuboid_a transform_a
          cuboid_b transform_b p.2.normalized to_center
        if overlap < acc.1 then (overlap, some p.1) else acc)
    (realMax, none)

/-- Embedding of `algo::cuboid_and_cuboid`; the result is the list of
contacts appended to the sink, `none` standing for a panic (the
`assert_ne!(best_case, usize::MAX)` or the `unreachable!` arm that
`best_case = 14` falls into). -/
def cuboid_and_cuboid (cuboid_a : Cuboid) (transform_a : Mat4)
    (cuboid_b : Cuboid) (transform_b : Mat4) (body_a : Nat)
    (body_b : Option Nat) : Option (List Contact) :=
  let to_center := transform_b.get_position - transform_a.get_position
  match satBest cuboid_a transform_a cuboid_b transform_b to_center with
  | (_, none) => none
  | (best_overlap, some best_case) =>
    if best_case < 3 then
      some [fill_point_face_cuboid_cuboid transform_a cuboid_b transform_b
        to_center body_a body_b best_case best_overlap]
    else if best_case < 6 then
      some [fill_point_face_cuboid_cuboid transform_b cuboid_a transform_a
        (to_center * (-1 : ℚ)) body_a body_b (best_case - 3) best_overlap]
    else if best_case < 14 then
      let axis_index_a := (best_case - 6) / 3
      let axis_index_b := (best_case - 6) % 3
      let axis_a := transform_a.get_axis_vector axis_index_a
      let axis_b := transform_b.get_axis_vector axis_index_b
      let crossed := (axis_a.cross axis_b).normalized
      let axis := if 0 < to_center.dot crossed then -crossed else crossed
      let edge_point_a : Vec3 :=
        ⟨if axis_index_a = 0 then 0
            else if 0 < (transform_a.get_axis_vector 0).dot axis then
              -cuboid_a.half_size.x
            else cuboid_a.half_size.x,
          if axis_index_a = 1 then 0
            else if 0 < (transform_a.get_axis_vector 1).dot axis then
              -cuboid_a.half_size.y
            else cuboid_a.half_size.y,
          if axis_index_a = 2 then 0
            else if 0 < (transform_a.get_axis_vector 2).dot axis then
              -cuboid_a.half_size.z
            else cuboid_a.half_size.z⟩
      let edge_point_b : Vec3 :=
        ⟨if axis_index_b = 0 then 0
            else if (transform_b.get_axis_vector 0).dot axis < 0 then
              -cuboid_b.half_size.x
            else cuboid_b.half_size.x,
          if axis_index_b = 1 then 0
            else if (transform_b.get_axis_vector 1).dot axis < 0 then
              -cuboid_b.half_size.y
            else cuboid_b.half_size.y,
          if axis_index_b = 2 then 0
            else if (transform_b.get_axis_vector 2).dot axis < 0 then
              -cuboid_b.half_size.z
            else cuboid_b.half_size.z⟩
      let vertex := cuboid_edge_edge_contact_point axis_a
        (transform_a.transform edge_point_a) axis_b
        (transform_b.transform edge_point_b)
      some [⟨body_a, body_b, vertex, axis, best_overlap⟩]
    else none

/-! ## Particle contacts: `src/particle/contacts.rs` -/

/-- Embedding of `ParticleContactData` (`src/particle/contacts.rs`). -/
structure ParticleContactData where
  restitution : ℚ
  normal : Vec3
  penetration : ℚ
  particle_a_movement : Vec3
  particle_b_movement : Vec3
deriving DecidableEq, Repr

/-- Embedding of `ParticleContact`; particle handles are embedded as the
indices of the particles in a list-backed store. -/
structure ParticleContact where
  particle_a : Nat
  particle_b : Option Nat
  data : ParticleContactData
deriving DecidableEq, Repr

/-- Embedding of `ParticleContactResolver::calculate_seperating_velocity`. -/
def calculate_seperating_velocity (particle_a : Particle)
    (particle_b : Option Particle) (contact_normal : Vec3) : ℚ :=
  (match particle_b with
    | some pb => particle_a.velocity - pb.velocity
    | none => particle_a.velocity).dot contact_normal

/-- Embedding of `ParticleContactResolver::resolve_velocity`; returns the
two (possibly updated) particles. -/
def resolve_velocity (particle_a : Particle) (particle_b : Option Particle)
    (duration : ℚ) (cd : ParticleContactData) : Particle × Option Particle :=
  let seperating_velocity :=
    calculate_seperating_velocity particle_a particle_b cd.normal
  if 0 < seperating_velocity then (particle_a, particle_b)
  else
    let new_sep_velocity := -cd.restitution * seperating_velocity
    let acc_caused_velocity :=
      match particle_b with
      | some pb => particle_a.acceleration - pb.acceleration
      | none => particle_a.acceleration
    let acc_caused_sep_velocity := acc_caused_velocity.dot cd.normal * duration
    let new_sep_velocity :=
      if acc_caused_sep_velocity < 0 then
        let lowered := new_sep_velocity + acc_caused_sep_velocity * cd.restitution
        if lowered < 0 then 0 else lowered
      else new_sep_velocity
    let delta_velocity := new_sep_velocity - seperating_velocity
    let total_inv_mass :=
      match particle_b with
      | some pb => particle_a.inverse_mass + pb.inverse_mass
      | none => particle_a.inverse_mass
    if total_inv_mass ≤ 0 then (particle_a, particle_b)
    else
      let impulse := delta_velocity / total_inv_mass
      let impulse_per_inv_mass := cd.normal * impulse
      ({ particle_a with
          velocity := particle_a.velocity
              + impulse_per_inv_mass * particle_a.inverse_mass },
        particle_b.map fun pb =>
          { pb with
            velocity := pb.velocity
                + impulse_per_inv_mass * pb.inverse_mass })

/-- Embedding of `ParticleContactResolver::resolve_interpenetration`;
returns the updated particles and contact data. -/
def resolve_interpenetration (particle_a : Particle)
    (particle_b : Option Particle) (_duration : ℚ)
    (cd : ParticleContactData) :
    Particle × Option Particle × ParticleContactData :=
  if cd.penetration ≤ 0 then (particle_a, particle_b, cd)
  else
    let total_inv_mass :=
      match particle_b with
      | some pb => particle_a.inverse_mass + pb.inverse_mass
      | none => particle_a.inverse_mass
    if total_inv_mass ≤ 0 then (particle_a, particle_b, cd)
    else
      let move_per_inv_mass : Vec3 :=
        cd.normal * (cd.penetration / total_inv_mass)
      let a_movement : Vec3 := move_per_inv_mass * particle_a.inverse_mass
      let b_movement : Vec3 :=
        match particle_b with
        | some pb => move_per_inv_mass * pb.inverse_mass
        | none => Vec3.zero
      ({ particle_a with position := particle_a.position + a_movement },
        particle_b.map fun pb =>
          { pb with position := pb.position + b_movement },
        { cd with
          particle_a_movement := a_movement
          particle_b_movement := b_movement })

/-- Embedding of `ParticleContactResolver::resolve_contact`: velocity
resolution followed by interpenetration resolution on the same contact. -/
def resolve_contact (particle_a : Particle) (particle_b : Option Particle)
    (duration : ℚ) (cd : ParticleContactData) :
    Particle × Option Particle × ParticleContactData :=
  let v := resolve_velocity particle_a particle_b duration cd
  resolve_interpenetration v.1 v.2 duration cd

/-- Embedding of the body of the `for` loop inside
`ParticleContactResolver::resolve` (one iteration of the outer `while`).
The particle store is a list indexed by handle; lookups use the list with a
default (the scenarios below only use valid indices, where the Rust
indexing does not panic).  Arguments after the indexed contact list: the
running `max`, `max_idx`, particle store and `iterations_used`; the result
is the particle store, the contact list (with any mutated contact data),
the final `iterations_used` and whether the loop hit its `break`. -/
def resolve_pass_go (duration : ℚ) (num_contacts : Nat) :
    List (Nat × ParticleContact) → ℚ → Nat → List Particle → Nat →
      List Particle × List ParticleContact × Nat × Bool
  | [], _, _, particles, used => (particles, [], used, false)
  | (i, contact) :: rest, max, maxIdx, particles, used =>
    let pa := particles.getD contact.particle_a default
    let pb := contact.particle_b.map fun h => particles.getD h default
    let sep_vel := calculate_seperating_velocity pa pb contact.data.normal
    let picked : ℚ × Nat :=
      if sep_vel < max ∧ sep_vel < 0 ∨ 0 < contact.data.penetration
      then (sep_vel, i) else (max, maxIdx)
    if picked.2 = num_contacts then
      (particles, contact :: rest.map (·.2), used, true)
    else
      let r := resolve_contact pa pb duration contact.data
      let particles1 := particles.set contact.particle_a r.1
      let particles2 :=
        match contact.particle_b, r.2.1 with
        | some h, some p => particles1.set h p
        | _, _ => particles1
      let tail :=
        resolve_pass_go duration num_contacts rest picked.1 picked.2
          particles2 (used + 1)
      (tail.1, { contact with data := r.2.2 } :: tail.2.1, tail.2.2)

/-- Embedding of one iteration of the `while` loop of
`ParticleContactResolver::resolve`: `max` starts at `Real::MAX` and
`max_idx` at `num_contacts`. -/
def resolve_pass (duration : ℚ) (contacts : List ParticleContact)
    (particles : List Particle) (used : Nat) :
    List Particle × List ParticleContact × Nat × Bool :=
  resolve_pass_go duration contacts.length contacts.enum realMax
    contacts.length particles used

/-! ## Particle links: `src/plinks.rs` -/

/-- Embedding of `ParticleGroundCollider` (`src/plinks.rs`). -/
structure ParticleGroundCollider where
  particle : Nat
  particle_radius : ℚ
  restitution : ℚ

/-- Embedding of `ParticleGroundCollider::add_contacts`; the written prefix
of the output slice is returned as a list (the return count of the Rust
method is its length). -/
def ParticleGroundCollider.add_contacts (g : ParticleGroundCollider)
    (particles : Nat → Particle) : List ParticleContact :=
  let position := (particles g.particle).position
  if g.particle_radius < position.y then []
  else
    [⟨g.particle, none,
      ⟨g.restitution, Vec3.unitY, g.particle_radius - position.y,
        Vec3.zero, Vec3.zero⟩⟩]

/-! ## Broad phase: `src/rigid_body/collide_broad.rs`

Two embeddings are used.  For the insertion heuristic and the potential
contact query (C5, C6) the node graph of the slotmap-backed `Bvh` is
represented structurally as an inductive binary tree (`BvhTree`): a leaf
carries its bounding volume and body, a branch its enclosing volume and two
children; parent back-links are implicit in the structure.  For the removal
claim (C7) the slotmap itself must be modelled, because the behaviour under
scrutiny is a stale node handle left in `root`; the `SmBvh` model keeps an
association list of nodes keyed by handle, a fresh-key counter, and the
`root` handle, with invalid-handle indexing (a Rust panic) as `none`. -/

/-- Embedding of `PotentialContact` (`src/rigid_body/collide_broad.rs`). -/
structure PotentialContact where
  body_a : Nat
  body_b : Nat
deriving DecidableEq, Repr

/-- Embedding of `BoundingSphere` (`src/rigid_body/collide_broad.rs`). -/
structure BoundingSphere where
  center : Vec3
  radius : ℚ
deriving DecidableEq, Repr

namespace BoundingSphere

/-- Embedding of `BoundingVolume::overlaps` for `BoundingSphere`: strict
comparison of squared center distance against the squared radius sum. -/
def overlaps (a b : BoundingSphere) : Bool :=
  a.center.distance_to_squared b.center <
    (a.radius + b.radius) * (a.radius + b.radius)

/-- Embedding of `BoundingVolume::size` for `BoundingSphere`; the decimal
literal 1.333333 of the source is embedded as the exact decimal. -/
def size (s : BoundingSphere) : ℚ :=
  1333333 / 1000000 * realPi * s.radius * s.radius * s.radius

/-- Embedding of `BoundingVolume::new_enclosing` for `BoundingSphere`. -/
def new_enclosing (one two : BoundingSphere) : BoundingSphere :=
  let center_offset := two.center - one.center
  let distance_squared := center_offset.squared_magnitude
  let radius_diff := two.radius - one.radius
  if radius_diff * radius_diff ≥ distance_squared then
    if one.radius > two.radius then one else two
  else
    let distance := ratSqrt distance_squared
    let radius := (distance + one.radius + two.radius) * (1 / 2)
    let center :=
      if distance > 0 then
        one.center + center_offset * ((radius - one.radius) / distance)
      else one.center
    ⟨center, radius⟩

/-- Embedding of `BoundingVolume::get_growth` for `BoundingSphere`:
proposed enclosing radius² minus current radius². -/
def get_growth (s new_volume : BoundingSphere) : ℚ :=
  let new_sphere := new_enclosing s new_volume
  new_sphere.radius * new_sphere.radius - s.radius * s.radius

end BoundingSphere

/-- Structural embedding of the node graph of `Bvh<BoundingSphere>`:
`BvhNode` with `BvhNodeData::Leaf`/`Branch`, the child handles replaced by
the subtrees themselves. -/
inductive BvhTree where
  | leaf (volume : BoundingSphere) (body : Nat)
  | branch (volume : BoundingSphere) (left right : BvhTree)
deriving DecidableEq, Repr

namespace BvhTree

/-- Bounding volume stored at the root node of a subtree. -/
def volume : BvhTree → BoundingSphere
  | leaf v _ => v
  | branch v _ _ => v

/-- Number of nodes of a subtree (recursion measure). -/
def nodeCount : BvhTree → Nat
  | leaf _ _ => 1
  | branch _ l r => l.nodeCount + r.nodeCount + 1

/-- Leaves of a subtree, as (volume, body) pairs in left-to-right order. -/
def leaves : BvhTree → List (BoundingSphere × Nat)
  | leaf v b => [(v, b)]
  | branch _ l r => l.leaves ++ r.leaves

/-- Bodies stored at the leaves of a subtree. -/
def leafBodies (t : BvhTree) : List Nat := t.leaves.map (·.2)

/-- Whether some leaf of the subtree stores the given body. -/
def containsBody : BvhTree → Nat → Bool
  | leaf _ b, x => b = x
  | branch _ l r, x => l.containsBody x || r.containsBody x

/-- Left child of a branch (a leaf is returned unchanged). -/
def leftChild : BvhTree → BvhTree
  | leaf v b => leaf v b
  | branch _ l _ => l

/-- Right child of a branch (a leaf is returned unchanged). -/
def rightChild : BvhTree → BvhTree
  | leaf v b => leaf v b
  | branch _ _ r => r

/-- Embedding of `Bvh::insert_at` on the structural tree: a leaf splits
into a branch keeping the old leaf on the left and the new leaf on the
right; at a branch the descent takes the left child exactly when its
volume's growth for the new volume is strictly smaller than the right
child's (otherwise — including ties — the right child). -/
def insert_at : BvhTree → Nat → BoundingSphere → BvhTree
  | leaf v b, new_body, new_volume =>
      branch (BoundingSphere.new_enclosing v new_volume) (leaf v b)
        (leaf new_volume new_body)
  | branch v l r, new_body, new_volume =>
      if l.volume.get_growth new_volume < r.volume.get_growth new_volume then
        branch v (l.insert_at new_body new_volume) r
      else
        branch v l (r.insert_at new_body new_volume)

end BvhTree

/-- Embedding of `Bvh::generate_potential_contacts_between` on the
structural tree: early out when the two root volumes do not overlap,
emit at leaf/leaf, descend the branch against a leaf, and between two
branches descend the one whose volume has the larger `size`. -/
def generate_potential_contacts_between (ta tb : BvhTree) :
    List PotentialContact :=
  if ta.volume.overlaps tb.volume = false then []
  else
    match ta, tb with
    | .leaf _ ba, .leaf _ bb => [⟨ba, bb⟩]
    | .branch _ l r, .leaf vb bb =>
        generate_potential_contacts_between l (.leaf vb bb) ++
          generate_potential_contacts_between r (.leaf vb bb)
    | .leaf va ba, .branch _ l r =>
        generate_potential_contacts_between l (.leaf va ba) ++
          generate_potential_contacts_between r (.leaf va ba)
    | .branch va la ra, .branch vb lb rb =>
        if va.size ≥ vb.size then
          generate_potential_contacts_between la (.branch vb lb rb) ++
            generate_potential_contacts_between ra (.branch vb lb rb)
        else
          generate_potential_contacts_between lb (.branch va la ra) ++
            generate_potential_contacts_between rb (.branch va la ra)
  termination_by ta.nodeCount + tb.nodeCount
  decreasing_by
    all_goals simp [BvhTree.nodeCount]
    all_goals omega

/-- Embedding of `Bvh::generate_potential_contacts_at` on the structural
tree: nothing at a leaf; at a branch, the cross query between the children
followed by the recursion into each child. -/
def generate_potential_contacts_at : BvhTree → List PotentialContact
  | .leaf _ _ => []
  | .branch _ l r =>
      generate_potential_contacts_between l r ++
        generate_potential_contacts_at l ++ generate_potential_contacts_at r

/-- Embedding of `Bvh::generate_potential_contacts` on the structural
tree. -/
def generate_potential_contacts (t : BvhTree) : List PotentialContact :=
  generate_potential_contacts_at t

/-- Embedding of `BvhNodeData` with slotmap child handles. -/
inductive SmNodeData where
  | leafOf (body : Nat)
  | branchOf (left right : Nat)
deriving DecidableEq, Repr

/-- Embedding of `BvhNode` with slotmap handles. -/
structure SmBvhNode where
  volume : BoundingSphere
  parent : Option Nat
  data : SmNodeData
deriving DecidableEq, Repr

/-- Embedding of `Bvh<BoundingSphere>` with its slotmap: an association
list of nodes keyed by handle, the next fresh handle, and the root
handle. -/
structure SmBvh where
  nodes : List (Nat × SmBvhNode)
  next_id : Nat
  root : Nat
deriving DecidableEq, Repr

namespace SmBvh

/-- Slotmap lookup (`self.nodes[id]` / `self.nodes.get(id)`); `none`
models the panic of indexing with an invalid handle. -/
def find? (s : SmBvh) (id : Nat) : Option SmBvhNode :=
  (s.nodes.find? fun p => p.1 = id).map (·.2)

/-- Slotmap in-place update of an existing entry. -/
def setNode (s : SmBvh) (id : Nat) (n : SmBvhNode) : SmBvh :=
  { s with nodes := s.nodes.map fun p => if p.1 = id then (id, n) else p }

/-- Slotmap insertion returning the fresh handle. -/
def insertNode (s : SmBvh) (n : SmBvhNode) : SmBvh × Nat :=
  ({ s with nodes := s.nodes ++ [(s.next_id, n)], next_id := s.next_id + 1 },
    s.next_id)

/-- Slotmap removal (`self.nodes.remove(id)`), dropping the entry. -/
def removeKey (s : SmBvh) (id : Nat) : SmBvh :=
  { s with nodes := s.nodes.filter fun p => p.1 ≠ id }

/-- Embedding of `Bvh::new`: a single leaf node which is the root. -/
def new (root_body : Nat) (volume : BoundingSphere) : SmBvh :=
  ⟨[(0, ⟨volume, none, .leafOf root_body⟩)], 1, 0⟩

/-- Embedding of `Bvh::recalculate_bounding_volume`, fuelled. -/
def recalculate_bounding_volume : Nat → SmBvh → Nat → Option SmBvh
  | 0, _, _ => none
  | fuel + 1, s, id => do
    let node ← s.find? id
    match node.data with
    | .leafOf _ => some s
    | .branchOf left right => do
      let ln ← s.find? left
      let rn ← s.find? right
      let s1 := s.setNode id
        { node with volume := BoundingSphere.new_enclosing ln.volume rn.volume }
      match node.parent with
      | some parent => recalculate_bounding_volume fuel s1 parent
      | none => some s1

/-- Embedding of `Bvh::remove_node`, fuelled.  When the node has a parent
the sibling's payload is copied into the parent, the sibling freed and
ancestor volumes recalculated; a parentless node skips all of that.
Children (if any) are recursively removed with their parent links
cleared, and finally the node's own slot is freed.  The `root` field is
never changed to represent an emptied tree — the source merely contains
the no-op `self.root = parent` reassignment, mirrored here. -/
def remove_node : Nat → SmBvh → Nat → Option SmBvh
  | 0, _, _ => none
  | fuel + 1, s, id => do
    let node ← s.find? id
    let s1 ← match node.parent with
      | none => some s
      | some parent => do
        let pnode ← s.find? parent
        match pnode.data with
        | .leafOf _ => none
        | .branchOf left right => do
          let sibling := if id = left then right else left
          let snode ← s.find? sibling
          let sA := s.setNode parent
            { pnode with volume := snode.volume, data := snode.data }
          let sB := if parent = sA.root then { sA with root := parent } else sA
          let sC := sB.removeKey sibling
          recalculate_bounding_volume fuel sC parent
    let node2 ← s1.find? id
    let s2 ← match node2.data with
      | .branchOf left right => do
        let ln ← s1.find? left
        let sL := s1.setNode left { ln with parent := none }
        let sL2 ← remove_node fuel sL left
        let rn ← sL2.find? right
        let sR := sL2.setNode right { rn with parent := none }
        remove_node fuel sR right
      | .leafOf _ => some s1
    some (s2.removeKey id)

/-- Embedding of `Bvh::remove_body`, fuelled: locate the leaf holding the
body (in slotmap iteration order), remove its node, and report the removed
handle; `some (s, none)` is the not-found early return. -/
def remove_body (fuel : Nat) (s : SmBvh) (body : Nat) :
    Option (SmBvh × Option Nat) :=
  match s.nodes.find? fun p =>
      match p.2.data with
      | .leafOf nb => nb = body
      | .branchOf _ _ => false with
  | none => some (s, none)
  | some hit => (remove_node fuel s hit.1).map fun s1 => (s1, some hit.1)

/-- Embedding of `Bvh::generate_potential_contacts_between` on the
slotmap representation, fuelled. -/
def generate_between_sm : Nat → SmBvh → Nat → Nat →
    Option (List PotentialContact)
  | 0, _, _, _ => none
  | fuel + 1, s, id_a, id_b => do
    let node_a ← s.find? id_a
    let node_b ← s.find? id_b
    if node_a.volume.overlaps node_b.volume = false then some []
    else
      match node_a.data, node_b.data with
      | .leafOf ba, .leafOf bb => some [⟨ba, bb⟩]
      | .branchOf left right, .leafOf _ => do
        let c1 ← generate_between_sm fuel s left id_b
        let c2 ← generate_between_sm fuel s right id_b
        some (c1 ++ c2)
      | .leafOf _, .branchOf left right => do
        let c1 ← generate_between_sm fuel s left id_a
        let c2 ← generate_between_sm fuel s right id_a
        some (c1 ++ c2)
      | .branchOf left_a right_a, .branchOf left_b right_b =>
        if node_a.volume.size ≥ node_b.volume.size then do
          let c1 ← generate_between_sm fuel s left_a id_b
          let c2 ← generate_between_sm fuel s right_a id_b
          some (c1 ++ c2)
        else do
          let c1 ← generate_between_sm fuel s left_b id_a
          let c2 ← generate_between_sm fuel s right_b id_a
          some (c1 ++ c2)

/-- Embedding of `Bvh::generate_potential_contacts_at` on the slotmap
representation, fuelled; indexing the node first, as the source does, so
an invalid handle is a panic (`none`) rather than an early return. -/
def generate_at_sm : Nat → SmBvh → Nat → Option (List PotentialContact)
  | 0, _, _ => none
  | fuel + 1, s, id => do
    let node ← s.find? id
    match node.data with
    | .leafOf _ => some []
    | .branchOf left right => do
      let c1 ← generate_between_sm fuel s left right
      let c2 ← generate_at_sm fuel s left
      let c3 ← generate_at_sm fuel s right
      some (c1 ++ c2 ++ c3)

/-- Embedding of `Bvh::generate_potential_contacts` on the slotmap
representation, fuelled: the query starts at `root`. -/
def generate_potential_contacts_sm (fuel : Nat) (s : SmBvh) :
    Option (List PotentialContact) :=
  generate_at_sm fuel s s.root

/-- Embedding of `Bvh::insert_at` on the slotmap representation, fuelled:
splitting a leaf allocates the clone and the new leaf, then turns the slot
into a branch of the two keeping the old parent link; at a branch the
descent compares the children's growth. -/
def insert_at_sm : Nat → SmBvh → Nat → Nat → BoundingSphere →
    Option (SmBvh × Nat)
  | 0, _, _, _, _ => none
  | fuel + 1, s, id, new_body, new_volume => do
    let node ← s.find? id
    match node.data with
    | .leafOf _ =>
      let r1 := s.insertNode { node with parent := some id }
      let r2 := r1.1.insertNode ⟨new_volume, some id, .leafOf new_body⟩
      let s3 := r2.1.setNode id
        ⟨BoundingSphere.new_enclosing node.volume new_volume, node.parent,
          .branchOf r1.2 r2.2⟩
      some (s3, r2.2)
    | .branchOf left right => do
      let ln ← s.find? left
      let rn ← s.find? right
      if ln.volume.get_growth new_volume < rn.volume.get_growth new_volume then
        insert_at_sm fuel s left new_body new_volume
      else
        insert_at_sm fuel s right new_body new_volume

/-- Embedding of `Bvh::insert` on the slotmap representation, fuelled:
insertion starts the descent at `root`. -/
def insert_sm (fuel : Nat) (s : SmBvh) (new_body : Nat)
    (new_volume : BoundingSphere) : Option (SmBvh × Nat) :=
  insert_at_sm fuel s s.root new_body new_volume

end SmBvh

end Cyclone

namespace Cyclone

@[simp] theorem Vec3.add_def (a b : Vec3) :
    a + b = ⟨a.x + b.x, a.y + b.y, a.z + b.z⟩ := rfl

@[simp] theorem Vec3.sub_def (a b : Vec3) :
    a - b = ⟨a.x - b.x, a.y - b.y, a.z - b.z⟩ := rfl

@[simp] theorem Vec3.neg_def (a : Vec3) : -a = ⟨-a.x, -a.y, -a.z⟩ := rfl

@[simp] theorem Vec3.smul_def (a : Vec3) (s : ℚ) :
    a * s = ⟨a.x * s, a.y * s, a.z * s⟩ := rfl

@[simp] theorem Vec3.sdiv_def (a : Vec3) (s : ℚ) :
    a / s = ⟨a.x / s, a.y / s, a.z / s⟩ := rfl

/-- C9: `Quat::normalized` is total, maps the all-zero quaternion to the
identity quaternion (1,0,0,0), and whenever the square root of the squared
magnitude is computed exactly (the exact-computation reading of the claim)
the result satisfies `is_normalized`. -/
theorem quat_normalized_total_and_normalized (q : Quat)
    (h : ratSqrt q.squared_magnitude * ratSqrt q.squared_magnitude
          = q.squared_magnitude) :
    Quat.normalized ⟨0, 0, 0, 0⟩ = ⟨1, 0, 0, 0⟩ ∧
      (q.normalized).is_normalized = true := by
  constructor
  · norm_num [Quat.normalized, Quat.squared_magnitude]
  · by_cases hz : q.squared_magnitude = 0
    · rw [Quat.normalized, if_pos hz]
      norm_num [Quat.is_normalized, Quat.squared_magnitude]
    · rw [Quat.normalized, if_neg hz]
      have hone :
          Quat.squared_magnitude
            ⟨q.r * (ratSqrt q.squared_magnitude)⁻¹,
              q.i * (ratSqrt q.squared_magnitude)⁻¹,
              q.j * (ratSqrt q.squared_magnitude)⁻¹,
              q.k * (ratSqrt q.squared_magnitude)⁻¹⟩ = 1 := by
        have hstep :
            Quat.squared_magnitude
              ⟨q.r * (ratSqrt q.squared_magnitude)⁻¹,
                q.i * (ratSqrt q.squared_magnitude)⁻¹,
                q.j * (ratSqrt q.squared_magnitude)⁻¹,
                q.k * (ratSqrt q.squared_magnitude)⁻¹⟩
              = q.squared_magnitude *
                  (ratSqrt q.squared_magnitude * ratSqrt q.squared_magnitude)⁻¹ := by
          rw [Quat.squared_magnitude, Quat.squared_magnitude]
          rw [mul_inv]
          ring
        rw [hstep, h, mul_inv_cancel₀ hz]
      rw [Quat.is_normalized, hone]
      norm_num

/-- Witness for C9 at the quaternion (3,4,0,0): its squared magnitude 25 has
the exact rational square root 5, and the normalized result (3/5,4/5,0,0)
passes the tolerance check. -/
theorem quat_normalized_total_and_normalized_witness :
    Quat.normalized ⟨0, 0, 0, 0⟩ = ⟨1, 0, 0, 0⟩ ∧
      (Quat.normalized ⟨3, 4, 0, 0⟩).is_normalized = true :=
  quat_normalized_total_and_normalized ⟨3, 4, 0, 0⟩
    (by norm_num [ratSqrt, Quat.squared_magnitude, natSqrt, natSqrtFrom])

set_option maxHeartbeats 4000000 in
/-- C1: evaluation of `algo::cuboid_and_cuboid` at a failing input.  Two
unit cuboids (half size (1,1,1)) sit at the origin and at (10,0,0) with
identity rotations, so the first tested SAT axis — the x face axis of
cuboid A, of unit (non-degenerate) magnitude — has overlap
1 + 1 − 10 = −8 < 0 and the cuboids are separated.  The claim requires
no contact to be appended; the code appends one contact whose
penetration is the negative overlap −8. -/
theorem cuboid_and_cuboid_contact_despite_separation :
    cuboids_penetration_on_axis ⟨⟨1, 1, 1⟩⟩ Mat4.identity ⟨⟨1, 1, 1⟩⟩
        ⟨1, 0, 0, 10, 0, 1, 0, 0, 0, 0, 1, 0⟩
        Mat4.identity.get_x_axis.normalized
        ((⟨1, 0, 0, 10, 0, 1, 0, 0, 0, 0, 1, 0⟩ : Mat4).get_position -
          Mat4.identity.get_position) = -8 ∧
      ¬ Mat4.identity.get_x_axis.squared_magnitude < 1 / 1000 ∧
      cuboid_and_cuboid ⟨⟨1, 1, 1⟩⟩ Mat4.identity ⟨⟨1, 1, 1⟩⟩
          ⟨1, 0, 0, 10, 0, 1, 0, 0, 0, 0, 1, 0⟩ 0 (some 1) =
        some [⟨0, some 1, ⟨9, 1, 1⟩, ⟨-1, 0, 0⟩, -8⟩] := by
  refine ⟨?_, ?_, ?_⟩ <;>
    norm_num [cuboid_and_cuboid, satBest, satAxes,
      fill_point_face_cuboid_cuboid, cuboids_penetration_on_axis,
      transform_cuboid_to_axis, Mat4.identity, Mat4.get_x_axis,
      Mat4.get_y_axis, Mat4.get_z_axis, Mat4.get_axis_vector,
      Mat4.get_position, Mat4.transform, Vec3.dot, Vec3.cross,
      Vec3.normalized, Vec3.squared_magnitude, ratSqrt, natSqrt,
      natSqrtFrom, realMax, List.enum, List.enumFrom]

/-- C2: evaluation of `RigidBody::update_derived_data` at a failing input.
For the body `derivedDataBody` (orientation already normalized, so the
rotation part R is exact) the method does compute R · I⁻¹ · Rᵀ from the
body-space tensor and the rebuilt transform, but it stores that product in
the body-space field `inverse_inertia_tensor` — which the claim requires
to stay unchanged — while the derived world-space field
`inverse_inertia_tensor_world` keeps its stale value; consequently a
second call with unchanged position and orientation yields different
derived data than the first. -/
theorem update_derived_data_clobbers_body_tensor :
    (derivedDataBody.update_derived_data).inverse_inertia_tensor =
        Mat3.mul_mat3
          (Mat4.rotation_part (derivedDataBody.update_derived_data).transform_matrix)
          (Mat3.mul_mat3 derivedDataBody.inverse_inertia_tensor
            (Mat4.rotation_part
              (derivedDataBody.update_derived_data).transform_matrix).transpose) ∧
      (derivedDataBody.update_derived_data).inverse_inertia_tensor ≠
        derivedDataBody.inverse_inertia_tensor ∧
      (derivedDataBody.update_derived_data).inverse_inertia_tensor_world =
        derivedDataBody.inverse_inertia_tensor_world ∧
      (derivedDataBody.update_derived_data.update_derived_data).inverse_inertia_tensor ≠
        (derivedDataBody.update_derived_data).inverse_inertia_tensor := by
  refine ⟨?_, ?_, ?_, ?_⟩ <;>
    norm_num [derivedDataBody, RigidBody.update_derived_data,
      inverse_inertia_tensor_to_world_coords, Quat.normalized,
      Quat.squared_magnitude, ratSqrt, natSqrt, natSqrtFrom,
      Mat4.from_orientation_and_position, Mat4.rotation_part,
      Mat3.mul_mat3, Mat3.transpose, Mat3.identity, Vec3.zero]

/-- C4: for positive inverse mass and positive duration,
`Particle::integrate` advances the position by the pre-step velocity times
the duration, damps and accelerates the velocity (acceleration plus
accumulated force times inverse mass), and clears the force accumulator;
for non-positive inverse mass it is the identity. -/
theorem particle_integrate_spec (powf : ℚ → ℚ → ℚ) (p : Particle) (dt : ℚ) :
    (0 < dt → 0 < p.inverse_mass →
      p.integrate powf dt =
        { p with
          position := p.position + p.velocity * dt
          velocity := p.velocity * powf p.damping dt
              + (p.acceleration + p.force_accum * p.inverse_mass) * dt
          force_accum := Vec3.zero }) ∧
    (p.inverse_mass ≤ 0 → p.integrate powf dt = p) := by
  constructor
  · intro _ hm
    rw [Particle.integrate, if_neg (not_le.mpr hm)]
  · intro hm
    rw [Particle.integrate, if_pos hm]

/-- Witness for C4: a unit-mass particle at rest position (0,0,0) with
velocity (1,0,0), acceleration (0,-10,0), accumulated force (2,0,0),
damping 1, integrated over a unit step with the constant-one power
function. -/
theorem particle_integrate_spec_witness :
    Particle.integrate (fun _ _ => 1)
        ⟨Vec3.zero, ⟨1, 0, 0⟩, ⟨0, -10, 0⟩, 1, 1, ⟨2, 0, 0⟩⟩ 1 =
      { (⟨Vec3.zero, ⟨1, 0, 0⟩, ⟨0, -10, 0⟩, 1, 1, ⟨2, 0, 0⟩⟩ : Particle) with
        position := Vec3.zero + (⟨1, 0, 0⟩ : Vec3) * (1 : ℚ)
        velocity := (⟨1, 0, 0⟩ : Vec3) * (1 : ℚ)
            + ((⟨0, -10, 0⟩ : Vec3) + (⟨2, 0, 0⟩ : Vec3) * (1 : ℚ)) * (1 : ℚ)
        force_accum := Vec3.zero } :=
  (particle_integrate_spec (fun _ _ => 1)
      ⟨Vec3.zero, ⟨1, 0, 0⟩, ⟨0, -10, 0⟩, 1, 1, ⟨2, 0, 0⟩⟩ 1).1
    (by norm_num) (by norm_num)

/-- C10: when the total inverse mass of the contact participants is
non-positive, both `resolve_velocity` and `resolve_interpenetration` leave
the particles (and, for the latter, the contact data) exactly unchanged. -/
theorem contact_resolution_immovable_unchanged (a : Particle)
    (b : Option Particle) (duration : ℚ) (cd : ParticleContactData)
    (h : (match b with
          | some pb => a.inverse_mass + pb.inverse_mass
          | none => a.inverse_mass) ≤ 0) :
    resolve_velocity a b duration cd = (a, b) ∧
      resolve_interpenetration a b duration cd = (a, b, cd) := by
  cases b with
  | none =>
    have h' : a.inverse_mass ≤ 0 := h
    refine ⟨?_, ?_⟩
    · by_cases hsep : 0 < calculate_seperating_velocity a none cd.normal
      · simp [resolve_velocity, hsep]
      · simp [resolve_velocity, hsep, h']
    · by_cases hpen : cd.penetration ≤ 0
      · simp [resolve_interpenetration, hpen]
      · simp [resolve_interpenetration, hpen, h']
  | some pb =>
    have h' : a.inverse_mass + pb.inverse_mass ≤ 0 := h
    refine ⟨?_, ?_⟩
    · by_cases hsep : 0 < calculate_seperating_velocity a (some pb) cd.normal
      · simp [resolve_velocity, hsep]
      · simp [resolve_velocity, hsep, h']
    · by_cases hpen : cd.penetration ≤ 0
      · simp [resolve_interpenetration, hpen]
      · simp [resolve_interpenetration, hpen, h']

/-- Witness for C10: two immovable particles (both inverse masses zero) in
a head-on contact along the x axis with penetration 1. -/
theorem contact_resolution_immovable_unchanged_witness :
    resolve_velocity
        ⟨Vec3.zero, ⟨1, 0, 0⟩, Vec3.zero, 1, 0, Vec3.zero⟩
        (some ⟨⟨2, 0, 0⟩, ⟨-1, 0, 0⟩, Vec3.zero, 1, 0, Vec3.zero⟩) 1
        ⟨1, ⟨1, 0, 0⟩, 1, Vec3.zero, Vec3.zero⟩ =
      (⟨Vec3.zero, ⟨1, 0, 0⟩, Vec3.zero, 1, 0, Vec3.zero⟩,
        some ⟨⟨2, 0, 0⟩, ⟨-1, 0, 0⟩, Vec3.zero, 1, 0, Vec3.zero⟩) ∧
      resolve_interpenetration
          ⟨Vec3.zero, ⟨1, 0, 0⟩, Vec3.zero, 1, 0, Vec3.zero⟩
          (some ⟨⟨2, 0, 0⟩, ⟨-1, 0, 0⟩, Vec3.zero, 1, 0, Vec3.zero⟩) 1
          ⟨1, ⟨1, 0, 0⟩, 1, Vec3.zero, Vec3.zero⟩ =
        (⟨Vec3.zero, ⟨1, 0, 0⟩, Vec3.zero, 1, 0, Vec3.zero⟩,
          some ⟨⟨2, 0, 0⟩, ⟨-1, 0, 0⟩, Vec3.zero, 1, 0, Vec3.zero⟩,
          ⟨1, ⟨1, 0, 0⟩, 1, Vec3.zero, Vec3.zero⟩) :=
  contact_resolution_immovable_unchanged
    ⟨Vec3.zero, ⟨1, 0, 0⟩, Vec3.zero, 1, 0, Vec3.zero⟩
    (some ⟨⟨2, 0, 0⟩, ⟨-1, 0, 0⟩, Vec3.zero, 1, 0, Vec3.zero⟩) 1
    ⟨1, ⟨1, 0, 0⟩, 1, Vec3.zero, Vec3.zero⟩ (by norm_num)

/-- C3: evaluation of one iteration of `ParticleContactResolver::resolve`
at a failing input.  Two one-particle contacts share the normal (1,0,0);
particle 0 closes at speed 1 (separating velocity −1) and particle 1 at
speed 2 (separating velocity −2), so the claim requires that only the
selected worst contact — contact 1 — be resolved, leaving particle 0's
velocity at (−1,0,0).  The code instead resolves the contact under the
scan cursor inside the selection loop: both particles end with velocity
zero and `iterations_used` grows by 2 in the single pass. -/
theorem resolver_pass_resolves_unselected_contact :
    resolve_pass 1
        [⟨0, none, ⟨0, ⟨1, 0, 0⟩, 0, Vec3.zero, Vec3.zero⟩⟩,
          ⟨1, none, ⟨0, ⟨1, 0, 0⟩, 0, Vec3.zero, Vec3.zero⟩⟩]
        [⟨Vec3.zero, ⟨-1, 0, 0⟩, Vec3.zero, 1, 1, Vec3.zero⟩,
          ⟨Vec3.zero, ⟨-2, 0, 0⟩, Vec3.zero, 1, 1, Vec3.zero⟩] 0 =
      ([⟨Vec3.zero, ⟨0, 0, 0⟩, Vec3.zero, 1, 1, Vec3.zero⟩,
          ⟨Vec3.zero, ⟨0, 0, 0⟩, Vec3.zero, 1, 1, Vec3.zero⟩],
        [⟨0, none, ⟨0, ⟨1, 0, 0⟩, 0, Vec3.zero, Vec3.zero⟩⟩,
          ⟨1, none, ⟨0, ⟨1, 0, 0⟩, 0, Vec3.zero, Vec3.zero⟩⟩], 2, false) ∧
      (⟨0, 0, 0⟩ : Vec3) ≠ ⟨-1, 0, 0⟩ := by
  constructor
  · norm_num [resolve_pass, resolve_pass_go, resolve_contact, resolve_velocity,
      resolve_interpenetration, calculate_seperating_velocity, realMax,
      Vec3.dot, Vec3.zero, List.enum, List.enumFrom, List.getD, List.set]
  · intro hcontra
    have := congrArg Vec3.x hcontra
    norm_num at this

/-- C7: evaluation of `Bvh::remove_node` through `Bvh::remove_body` when
the removed leaf is the root.  Removing body 0 from a single-leaf tree
empties the node slotmap but leaves `root` pointing at the freed handle 0;
the claim requires subsequent operations to treat the tree as empty, but
both `generate_potential_contacts` and a subsequent `insert` index the
slotmap with the stale root handle and panic (`none`). -/
theorem bvh_remove_root_leaf_leaves_stale_root :
    SmBvh.remove_body 4 (SmBvh.new 0 ⟨Vec3.zero, 1⟩) 0 =
        some (⟨[], 1, 0⟩, some 0) ∧
      SmBvh.generate_potential_contacts_sm 4 ⟨[], 1, 0⟩ = none ∧
      SmBvh.insert_sm 4 ⟨[], 1, 0⟩ 1 ⟨Vec3.zero, 1⟩ = none := by
  refine ⟨?_, ?_, ?_⟩ <;> rfl

/-- Helper for C5: the body just inserted is always found in the updated
subtree. -/
theorem BvhTree.containsBody_insert_at (t : BvhTree) (b : Nat)
    (nv : BoundingSphere) : (t.insert_at b nv).containsBody b = true := by
  induction t with
  | leaf v b0 => simp [BvhTree.insert_at, BvhTree.containsBody]
  | branch v l r ihl ihr =>
    rw [BvhTree.insert_at]
    split
    · simp [BvhTree.containsBody, ihl]
    · simp [BvhTree.containsBody, ihr]

/-- C5 (amended): at a branch, `Bvh::insert_at` places the new body in the
left subtree exactly when the left child's growth for the new volume is
strictly smaller than the right child's; otherwise — including when the
two growths are equal — the body goes into the right subtree. -/
theorem bvh_insert_descends_strictly_smaller_growth (v : BoundingSphere)
    (l r : BvhTree) (b : Nat) (nv : BoundingSphere)
    (hl : l.containsBody b = false) (hr : r.containsBody b = false) :
    (((BvhTree.branch v l r).insert_at b nv).leftChild.containsBody b
          = true ↔
        l.volume.get_growth nv < r.volume.get_growth nv) ∧
      (((BvhTree.branch v l r).insert_at b nv).rightChild.containsBody b
          = true ↔
        ¬ l.volume.get_growth nv < r.volume.get_growth nv) := by
  rw [BvhTree.insert_at]
  split
  case isTrue h =>
    constructor
    · simp [BvhTree.leftChild, BvhTree.containsBody_insert_at, h]
    · simp [BvhTree.rightChild, hr, h]
  case isFalse h =>
    constructor
    · simp [BvhTree.leftChild, hl, h]
    · simp [BvhTree.rightChild, BvhTree.containsBody_insert_at, h]

/-- Witness for C5 (amended): inserting body 2 with a unit sphere at the
origin into a branch whose left child (unit sphere at the origin, growth
0) grows strictly less than its right child (unit sphere at (5,0,0),
growth 45/4) descends into the left subtree. -/
theorem bvh_insert_descends_strictly_smaller_growth_witness :
    ((BvhTree.branch ⟨Vec3.zero, 1⟩ (BvhTree.leaf ⟨Vec3.zero, 1⟩ 0)
          (BvhTree.leaf ⟨⟨5, 0, 0⟩, 1⟩ 1)).insert_at 2
        ⟨Vec3.zero, 1⟩).leftChild.containsBody 2 = true :=
  (bvh_insert_descends_strictly_smaller_growth ⟨Vec3.zero, 1⟩
      (BvhTree.leaf ⟨Vec3.zero, 1⟩ 0) (BvhTree.leaf ⟨⟨5, 0, 0⟩, 1⟩ 1) 2
      ⟨Vec3.zero, 1⟩ (by rfl) (by rfl)).1.mpr
    (by norm_num [BvhTree.volume, BoundingSphere.get_growth,
      BoundingSphere.new_enclosing, Vec3.squared_magnitude, Vec3.zero,
      ratSqrt, natSqrt, natSqrtFrom])

/-- Counterexample for C5 as stated: both children of the branch carry the
unit sphere at the origin, so both growths for that same new volume are
equal (both zero); the claim requires the tie to descend into the left
child, but the inserted body 2 lands in the right subtree and not in the
left one. -/
theorem bvh_insert_tie_goes_right_counterexample :
    (BvhTree.leaf ⟨Vec3.zero, 1⟩ 0).volume.get_growth ⟨Vec3.zero, 1⟩ =
        (BvhTree.leaf ⟨Vec3.zero, 1⟩ 1).volume.get_growth ⟨Vec3.zero, 1⟩ ∧
      ((BvhTree.branch ⟨Vec3.zero, 1⟩ (BvhTree.leaf ⟨Vec3.zero, 1⟩ 0)
            (BvhTree.leaf ⟨Vec3.zero, 1⟩ 1)).insert_at 2
          ⟨Vec3.zero, 1⟩).leftChild.containsBody 2 = false ∧
      ((BvhTree.branch ⟨Vec3.zero, 1⟩ (BvhTree.leaf ⟨Vec3.zero, 1⟩ 0)
            (BvhTree.leaf ⟨Vec3.zero, 1⟩ 1)).insert_at 2
          ⟨Vec3.zero, 1⟩).rightChild.containsBody 2 = true := by
  refine ⟨rfl, ?_, ?_⟩ <;>
    norm_num [BvhTree.insert_at, BvhTree.leftChild, BvhTree.rightChild,
      BvhTree.containsBody, BvhTree.volume, BoundingSphere.get_growth,
      BoundingSphere.new_enclosing, Vec3.squared_magnitude, Vec3.zero,
      ratSqrt, natSqrt, natSqrtFrom]

set_option maxHeartbeats 2000000 in
/-- Helper for C6: every pair emitted by
`generate_potential_contacts_between` pairs a leaf of one subtree with a
leaf of the other (in one of the two orders), and the two leaf volumes
overlap. -/
theorem mem_generate_between (n : Nat) :
    ∀ ta tb : BvhTree, ta.nodeCount + tb.nodeCount ≤ n →
      ∀ p : PotentialContact, p ∈ generate_potential_contacts_between ta tb →
      ∃ va vb, va.overlaps vb = true ∧
        (((va, p.body_a) ∈ ta.leaves ∧ (vb, p.body_b) ∈ tb.leaves) ∨
          ((va, p.body_a) ∈ tb.leaves ∧ (vb, p.body_b) ∈ ta.leaves)) := by
  induction n with
  | zero =>
    intro ta tb h
    cases ta <;> simp [BvhTree.nodeCount] at h
  | succ n ih =>
    intro ta tb hn p hp
    have hov : ¬ BoundingSphere.overlaps ta.volume tb.volume = false := by
      intro hfalse
      rw [generate_potential_contacts_between.eq_def, if_pos hfalse] at hp
      simp at hp
    have hov' : BoundingSphere.overlaps ta.volume tb.volume = true := by
      cases hcase : BoundingSphere.overlaps ta.volume tb.volume
      · exact absurd hcase hov
      · rfl
    rw [generate_potential_contacts_between.eq_def, if_neg hov] at hp
    cases ta with
    | leaf va ba =>
      cases tb with
      | leaf vb bb =>
        simp at hp
        refine ⟨va, vb, ?_, Or.inl ?_⟩
        · simpa [BvhTree.volume] using hov'
        · simp [BvhTree.leaves, hp]
      | branch vb l r =>
        simp only [] at hp
        rcases List.mem_append.mp hp with hmem | hmem
        · have hc : l.nodeCount + (BvhTree.leaf va ba).nodeCount ≤ n := by
            simp [BvhTree.nodeCount] at hn ⊢
            omega
          obtain ⟨va', vb', hovl, hcase⟩ := ih l (BvhTree.leaf va ba) hc p hmem
          refine ⟨va', vb', hovl, ?_⟩
          rcases hcase with ⟨h1, h2⟩ | ⟨h1, h2⟩
          · exact Or.inr ⟨by simp [BvhTree.leaves]; exact Or.inl h1, h2⟩
          · exact Or.inl ⟨h1, by simp [BvhTree.leaves]; exact Or.inl h2⟩
        · have hc : r.nodeCount + (BvhTree.leaf va ba).nodeCount ≤ n := by
            simp [BvhTree.nodeCount] at hn ⊢
            omega
          obtain ⟨va', vb', hovl, hcase⟩ := ih r (BvhTree.leaf va ba) hc p hmem
          refine ⟨va', vb', hovl, ?_⟩
          rcases hcase with ⟨h1, h2⟩ | ⟨h1, h2⟩
          · exact Or.inr ⟨by simp [BvhTree.leaves]; exact Or.inr h1, h2⟩
          · exact Or.inl ⟨h1, by simp [BvhTree.leaves]; exact Or.inr h2⟩
    | branch va l r =>
      cases tb with
      | leaf vb bb =>
        simp only [] at hp
        rcases List.mem_append.mp hp with hmem | hmem
        · have hc : l.nodeCount + (BvhTree.leaf vb bb).nodeCount ≤ n := by
            simp [BvhTree.nodeCount] at hn ⊢
            omega
          obtain ⟨va', vb', hovl, hcase⟩ := ih l (BvhTree.leaf vb bb) hc p hmem
          refine ⟨va', vb', hovl, ?_⟩
          rcases hcase with ⟨h1, h2⟩ | ⟨h1, h2⟩
          · exact Or.inl ⟨by simp [BvhTree.leaves]; exact Or.inl h1, h2⟩
          · exact Or.inr ⟨h1, by simp [BvhTree.leaves]; exact Or.inl h2⟩
        · have hc : r.nodeCount + (BvhTree.leaf vb bb).nodeCount ≤ n := by
            simp [BvhTree.nodeCount] at hn ⊢
            omega
          obtain ⟨va', vb', hovl, hcase⟩ := ih r (BvhTree.leaf vb bb) hc p hmem
          refine ⟨va', vb', hovl, ?_⟩
          rcases hcase with ⟨h1, h2⟩ | ⟨h1, h2⟩
          · exact Or.inl ⟨by simp [BvhTree.leaves]; exact Or.inr h1, h2⟩
          · exact Or.inr ⟨h1, by simp [BvhTree.leaves]; exact Or.inr h2⟩
      | branch vb lb rb =>
        simp only [] at hp
        split at hp
        · rcases List.mem_append.mp hp with hmem | hmem
          · have hc : l.nodeCount + (BvhTree.branch vb lb rb).nodeCount ≤ n := by
              simp [BvhTree.nodeCount] at hn ⊢
              omega
            obtain ⟨va', vb', hovl, hcase⟩ :=
              ih l (BvhTree.branch vb lb rb) hc p hmem
            refine ⟨va', vb', hovl, ?_⟩
            rcases hcase with ⟨h1, h2⟩ | ⟨h1, h2⟩
            · exact Or.inl ⟨by simp [BvhTree.leaves]; exact Or.inl h1, h2⟩
            · exact Or.inr ⟨h1, by simp [BvhTree.leaves]; exact Or.inl h2⟩
          · have hc : r.nodeCount + (BvhTree.branch vb lb rb).nodeCount ≤ n := by
              simp [BvhTree.nodeCount] at hn ⊢
              omega
            obtain ⟨va', vb', hovl, hcase⟩ :=
              ih r (BvhTree.branch vb lb rb) hc p hmem
            refine ⟨va', vb', hovl, ?_⟩
            rcases hcase with ⟨h1, h2⟩ | ⟨h1, h2⟩
            · exact Or.inl ⟨by simp [BvhTree.leaves]; exact Or.inr h1, h2⟩
            · exact Or.inr ⟨h1, by simp [BvhTree.leaves]; exact Or.inr h2⟩
        · rcases List.mem_append.mp hp with hmem | hmem
          · have hc : lb.nodeCount + (BvhTree.branch va l r).nodeCount ≤ n := by
              simp [BvhTree.nodeCount] at hn ⊢
              omega
            obtain ⟨va', vb', hovl, hcase⟩ :=
              ih lb (BvhTree.branch va l r) hc p hmem
            refine ⟨va', vb', hovl, ?_⟩
            rcases hcase with ⟨h1, h2⟩ | ⟨h1, h2⟩
            · exact Or.inr ⟨by simp [BvhTree.leaves]; exact Or.inl h1, h2⟩
            · exact Or.inl ⟨h1, by simp [BvhTree.leaves]; exact Or.inl h2⟩
          · have hc : rb.nodeCount + (BvhTree.branch va l r).nodeCount ≤ n := by
              simp [BvhTree.nodeCount] at hn ⊢
              omega
            obtain ⟨va', vb', hovl, hcase⟩ :=
              ih rb (BvhTree.branch va l r) hc p hmem
            refine ⟨va', vb', hovl, ?_⟩
            rcases hcase with ⟨h1, h2⟩ | ⟨h1, h2⟩
            · exact Or.inr ⟨by simp [BvhTree.leaves]; exact Or.inr h1, h2⟩
            · exact Or.inl ⟨h1, by simp [BvhTree.leaves]; exact Or.inr h2⟩

/-- Helper for C6: the leaf bodies of a branch are the concatenation of
the children's leaf bodies. -/
theorem leafBodies_branch (v : BoundingSphere) (l r : BvhTree) :
    (BvhTree.branch v l r).leafBodies = l.leafBodies ++ r.leafBodies := by
  simp [BvhTree.leafBodies, BvhTree.leaves]

/-- Helper for C6: a leaf's body is among the subtree's leaf bodies. -/
theorem mem_leafBodies_of_mem_leaves {t : BvhTree} {v : BoundingSphere}
    {b : Nat} (h : (v, b) ∈ t.leaves) : b ∈ t.leafBodies :=
  List.mem_map_of_mem (·.2) h

/-- C6: in a well-formed BVH (pairwise distinct leaf bodies), every
potential contact emitted by `generate_potential_contacts` pairs two
distinct leaf bodies whose leaf bounding volumes overlap; in particular no
pair with non-overlapping bounding volumes is ever emitted. -/
theorem generate_potential_contacts_distinct_overlapping (t : BvhTree)
    (hwf : t.leafBodies.Nodup) (p : PotentialContact)
    (hp : p ∈ generate_potential_contacts t) :
    p.body_a ≠ p.body_b ∧
      ∃ va vb, (va, p.body_a) ∈ t.leaves ∧ (vb, p.body_b) ∈ t.leaves ∧
        va.overlaps vb = true := by
  induction t with
  | leaf v b =>
    simp [generate_potential_contacts, generate_potential_contacts_at] at hp
  | branch v l r ihl ihr =>
    rw [generate_potential_contacts, generate_potential_contacts_at] at hp
    rw [leafBodies_branch, List.nodup_append] at hwf
    obtain ⟨hnl, hnr, hdisj⟩ := hwf
    rcases List.mem_append.mp hp with hp1 | hp3
    · rcases List.mem_append.mp hp1 with hpb | hpl
      · obtain ⟨va, vb, hov, hcase⟩ :=
          mem_generate_between (l.nodeCount + r.nodeCount) l r le_rfl p hpb
        rcases hcase with ⟨h1, h2⟩ | ⟨h1, h2⟩
        · refine ⟨?_, va, vb, ?_, ?_, hov⟩
          · intro heq
            exact hdisj (mem_leafBodies_of_mem_leaves h1)
              (heq ▸ mem_leafBodies_of_mem_leaves h2)
          · simp [BvhTree.leaves]
            exact Or.inl h1
          · simp [BvhTree.leaves]
            exact Or.inr h2
        · refine ⟨?_, va, vb, ?_, ?_, hov⟩
          · intro heq
            exact hdisj (heq ▸ mem_leafBodies_of_mem_leaves h2)
              (mem_leafBodies_of_mem_leaves h1)
          · simp [BvhTree.leaves]
            exact Or.inr h1
          · simp [BvhTree.leaves]
            exact Or.inl h2
      · obtain ⟨hne, va, vb, h1, h2, hov⟩ := ihl hnl hpl
        refine ⟨hne, va, vb, ?_, ?_, hov⟩
        · simp [BvhTree.leaves]
          exact Or.inl h1
        · simp [BvhTree.leaves]
          exact Or.inl h2
    · obtain ⟨hne, va, vb, h1, h2, hov⟩ := ihr hnr hp3
      refine ⟨hne, va, vb, ?_, ?_, hov⟩
      · simp [BvhTree.leaves]
        exact Or.inr h1
      · simp [BvhTree.leaves]
        exact Or.inr h2

/-- Witness for C6: a two-leaf BVH with overlapping unit spheres at the
origin and at (1,0,0); the single emitted pair (0,1) is distinct and its
leaf volumes overlap. -/
theorem generate_potential_contacts_distinct_overlapping_witness :
    (⟨0, 1⟩ : PotentialContact).body_a ≠ (⟨0, 1⟩ : PotentialContact).body_b ∧
      ∃ va vb,
        (va, (⟨0, 1⟩ : PotentialContact).body_a) ∈
            (BvhTree.branch ⟨Vec3.zero, 2⟩ (BvhTree.leaf ⟨Vec3.zero, 1⟩ 0)
              (BvhTree.leaf ⟨⟨1, 0, 0⟩, 1⟩ 1)).leaves ∧
          (vb, (⟨0, 1⟩ : PotentialContact).body_b) ∈
            (BvhTree.branch ⟨Vec3.zero, 2⟩ (BvhTree.leaf ⟨Vec3.zero, 1⟩ 0)
              (BvhTree.leaf ⟨⟨1, 0, 0⟩, 1⟩ 1)).leaves ∧
          va.overlaps vb = true :=
  generate_potential_contacts_distinct_overlapping
    (BvhTree.branch ⟨Vec3.zero, 2⟩ (BvhTree.leaf ⟨Vec3.zero, 1⟩ 0)
      (BvhTree.leaf ⟨⟨1, 0, 0⟩, 1⟩ 1))
    (by simp [BvhTree.leafBodies, BvhTree.leaves]) ⟨0, 1⟩
    (by norm_num [generate_potential_contacts,
      generate_potential_contacts_at, generate_potential_contacts_between,
      BvhTree.volume, BoundingSphere.overlaps, Vec3.distance_to_squared,
      Vec3.squared_magnitude, Vec3.zero])

/-- C8: `ParticleGroundCollider::add_contacts` writes exactly one contact
iff the particle's y coordinate is at most the configured radius, with
normal +Y, no second particle, the configured restitution, and penetration
radius − y; otherwise it writes nothing. -/
theorem ground_collider_contact_spec (g : ParticleGroundCollider)
    (particles : Nat → Particle) :
    ((particles g.particle).position.y ≤ g.particle_radius →
      g.add_contacts particles =
        [⟨g.particle, none,
          ⟨g.restitution, Vec3.unitY,
            g.particle_radius - (particles g.particle).position.y,
            Vec3.zero, Vec3.zero⟩⟩]) ∧
    (g.particle_radius < (particles g.particle).position.y →
      g.add_contacts particles = []) := by
  constructor
  · intro hy
    rw [ParticleGroundCollider.add_contacts, if_neg (not_lt.mpr hy)]
  · intro hy
    rw [ParticleGroundCollider.add_contacts, if_pos hy]

/-- Witness for C8: radius 1/2, restitution 3/4, particle resting at
y = 1/4 below the collision threshold produces the single expected
contact. -/
theorem ground_collider_contact_spec_witness :
    ParticleGroundCollider.add_contacts ⟨5, 1 / 2, 3 / 4⟩
        (fun _ => ⟨⟨0, 1 / 4, 0⟩, Vec3.zero, Vec3.zero, 1, 1, Vec3.zero⟩) =
      [⟨5, none, ⟨3 / 4, Vec3.unitY, 1 / 2 - 1 / 4, Vec3.zero, Vec3.zero⟩⟩] :=
  (ground_collider_contact_spec ⟨5, 1 / 2, 3 / 4⟩
      (fun _ => ⟨⟨0, 1 / 4, 0⟩, Vec3.zero, Vec3.zero, 1, 1, Vec3.zero⟩)).1
    (by norm_num)

end Cyclone
